import Mathlib

/-!
# Verification of the ishinex session/history core

Shallow embedding of the history-unification pipeline
(`src-tauri/src/unified_history.rs`) and of the provider supervisor /
cancellation / default-model commands
(`src-tauri/src/commands/codex.rs`, `src-tauri/src/commands/gemini.rs`),
together with proofs of the specified properties.

JSON values are modelled by a small inductive `Json`; external library
functions (serde_json's parser and serializer, chrono's RFC3339 parser)
are parameters of the model, since they are third-party collaborators,
not code of this repository.
-/

/-- A JSON value, as produced by serde_json parsing
(numbers restricted to integers; the claims never inspect numeric
payloads beyond equality). Object fields keep unique keys in map order,
as serde_json's default `Map` does. -/
inductive Json where
  | null : Json
  | bool (b : Bool) : Json
  | num (n : Int) : Json
  | str (s : String) : Json
  | arr (elems : List Json) : Json
  | obj (fields : List (String × Json)) : Json

namespace Json

/-- `serde_json::Value::get(key)`: on an object, the value bound to `key`
(first binding; keys are unique), otherwise `None`. -/
def get (v : Json) (key : String) : Option Json :=
  match v with
  | .obj fields => (fields.find? (fun kv => kv.1 = key)).map (·.2)
  | _ => none

/-- `serde_json::Value::as_str`. -/
def asStr (v : Json) : Option String :=
  match v with
  | .str s => some s
  | _ => none

end Json

/-- `try_get_ts` (unified_history.rs:30-34): read the `"timestamp"` field
as a string and parse it with the RFC3339 parser `parse`
(chrono's `DateTime::parse_from_rfc3339(..).timestamp_millis()`,
an external collaborator abstracted as a function argument). -/
def tryGetTs (parse : String → Option Int) (v : Json) : Option Int :=
  match (v.get "timestamp").bind Json.asStr with
  | some ts => parse ts
  | none => none

/-- The sort key used at unified_history.rs:126:
`try_get_ts(v).unwrap_or(0)`. -/
def sortKeyTs (parse : String → Option Int) (v : Json) : Int :=
  (tryGetTs parse v).getD 0

/-- The comparison relation of `all.sort_by_key(|v| try_get_ts(v).unwrap_or(0))`. -/
def tsLe (parse : String → Option Int) (a b : Json) : Prop :=
  sortKeyTs parse a ≤ sortKeyTs parse b

instance (parse : String → Option Int) : DecidableRel (tsLe parse) :=
  fun a b => Int.decLe _ _

/-- `all.sort_by_key(..)` (unified_history.rs:126). Rust's `sort_by_key`
is a stable sort; a stable sort by key is a unique function, modelled
here by stable insertion sort. -/
def sortByTs (parse : String → Option Int) (l : List Json) : List Json :=
  l.insertionSort (tsLe parse)

/-- `encode_project_id` (unified_history.rs:17): `path.replace('/', "-")`.
A `char` pattern replaced by a one-character string is a character-wise map. -/
def encode_project_id (path : String) : String :=
  String.mk (path.data.map (fun c => if c = '/' then '-' else c))

/-- The character-wise inverse used to state recoverability of
`encode_project_id` on dash-free paths. -/
def decode_project_id (s : String) : String :=
  String.mk (s.data.map (fun c => if c = '-' then '/' else c))

/-- `read_jsonl` (unified_history.rs:19-28) on the lines of one file:
each line is parsed independently by the JSON parser `parse`
(serde_json, abstracted); lines that fail to parse are dropped. -/
def read_jsonl (parse : String → Option Json) (lines : List String) : List Json :=
  lines.filterMap parse

/-! ## Filesystem model for the unifier

Paths are lists of components (`PathBuf::join` appends a component).
A file is its path plus its text lines; the filesystem is the list of
files in enumeration order (the order `read_dir`/`WalkDir` yields,
fixed between the two runs claim C2 compares). -/

/-- One on-disk text file: absolute path (as components) and its lines. -/
structure SrcFile where
  path : List String
  lines : List String

/-- The filesystem as seen by the unifier. -/
structure Fsys where
  files : List SrcFile

/-- Rust `Path::extension() == Some("jsonl")` on a file name: the part
after the last dot, except that a leading dot with no other dot marks a
hidden file without extension. -/
def isJsonlName (name : String) : Bool :=
  match name.splitOn "." with
  | [] => false
  | [_] => false
  | first :: rest => (rest.getLast? == some "jsonl") && (first ≠ "" || rest.length ≥ 2)

/-- `haystack.contains(&needle)` on strings: substring test, char-wise. -/
def containsSub (needle : List Char) : List Char → Bool
  | [] => needle.isEmpty
  | c :: cs => needle.isPrefixOf (c :: cs) || containsSub needle cs

/-- `~/.claude/projects/<encoded project id>`, the directory
`gather_claude` (unified_history.rs:36-52) reads. -/
def claudeDir (projectPath : String) : List String :=
  ["~", ".claude", "projects", encode_project_id projectPath]

/-- A file `read_dir` yields for `gather_claude`: directly under the
claude project directory, with extension `jsonl`. -/
def claudeSelects (projectPath : String) (p : List String) : Bool :=
  match p.reverse with
  | name :: revDir => (revDir.reverse == claudeDir projectPath) && isJsonlName name
  | [] => false

/-- `gather_claude` (unified_history.rs:36-52): read every `*.jsonl`
file directly under the claude project directory and concatenate the
parsed records in enumeration order. -/
def gather_claude (parse : String → Option Json) (fs : Fsys) (projectPath : String) :
    List Json :=
  (fs.files.filter (fun f => claudeSelects projectPath f.path)).flatMap
    (fun f => read_jsonl parse f.lines)

/-- Candidate roots for codex logs (unified_history.rs:107-109), after
tilde expansion, as path components. -/
def codexRoots : List (List String) :=
  [["~", ".codex"], ["~", ".openai"], ["~", ".config", "openai"],
   ["~", ".config", "codex"], ["~", "Library", "Application Support", "OpenAI"]]

/-- Candidate roots for gemini logs (unified_history.rs:110-112). -/
def geminiRoots : List (List String) :=
  [["~", ".gemini"], ["~", ".config", "gemini"],
   ["~", "Library", "Application Support", "Gemini"]]

/-- A file `WalkDir::new(root).max_depth(4)` yields for
`gather_from_candidates`: under `root`, at depth at most 4, named
`*.jsonl`. -/
def underRoot (root : List String) (p : List String) : Bool :=
  (root.isPrefixOf p) && (p.length > root.length) && (p.length ≤ root.length + 4) &&
    (match p.getLast? with
     | some name => isJsonlName name
     | none => false)

/-- The first-10-lines probe of `gather_from_candidates`
(unified_history.rs:73-80): some of the first ten lines contains the
project path as a substring. -/
def probeMatches (projectPath : String) (lines : List String) : Bool :=
  (lines.take 10).any (fun l => containsSub projectPath.data l.data)

/-- `gather_from_candidates` (unified_history.rs:63-88): for each root in
order, every `*.jsonl` file under it (depth ≤ 4) whose first ten lines
mention the project path contributes its parsed records. -/
def gather_from_candidates (parse : String → Option Json) (fs : Fsys)
    (projectPath : String) (roots : List (List String)) : List Json :=
  roots.flatMap (fun root =>
    (fs.files.filter (fun f =>
        underRoot root f.path && probeMatches projectPath f.lines)).flatMap
      (fun f => read_jsonl parse f.lines))

/-- `SourceStat` (unified_history.rs:97-101). -/
structure SourceStat where
  provider : String
  count : Nat
deriving DecidableEq

/-- `UnifyResult` (unified_history.rs:90-95); the output path is kept as
components. -/
structure UnifyResult where
  unified_path : List String
  total_messages : Nat
  sources : List SourceStat

/-- `~/.ishinex/projects/<encoded id>/unified/unified.jsonl`
(unified_history.rs:128-133). -/
def unifiedPath (projectPath : String) : List String :=
  ["~", ".ishinex", "projects", encode_project_id projectPath, "unified", "unified.jsonl"]

/-- `fs::File::create` + line writes: replace the lines of the file at
`p` (create and truncate), appending a fresh file when absent. -/
def writeFile (fs : Fsys) (p : List String) (lines : List String) : Fsys :=
  if fs.files.any (fun f => f.path = p) then
    ⟨fs.files.map (fun f => if f.path = p then ⟨p, lines⟩ else f)⟩
  else
    ⟨fs.files ++ [⟨p, lines⟩]⟩

/-- Read back the lines of the file at `p`, if present. -/
def readFile (fs : Fsys) (p : List String) : Option (List String) :=
  (fs.files.find? (fun f => f.path = p)).map (·.lines)

/-- The pure core of `unify_provider_histories` (unified_history.rs:114-126):
per-provider stats (zero-contributing providers omitted), then
concatenation claude ++ codex ++ gemini, then the stable sort by
timestamp key. -/
def unifyCore (parse : String → Option Int)
    (claude codex gemini : List Json) : List Json × List SourceStat :=
  let sources :=
    (if claude.isEmpty then [] else [SourceStat.mk "claude" claude.length]) ++
    (if codex.isEmpty then [] else [SourceStat.mk "codex" codex.length]) ++
    (if gemini.isEmpty then [] else [SourceStat.mk "gemini" gemini.length])
  (sortByTs parse (claude ++ codex ++ gemini), sources)

/-- `unify_provider_histories` (unified_history.rs:103-146): gather from
the three providers, merge, write `unified.jsonl` (one serialized line
per record, via serde's serializer `ser`), and report the statistics. -/
def unify_provider_histories (parseJson : String → Option Json)
    (parseTs : String → Option Int) (ser : Json → String)
    (fs : Fsys) (projectPath : String) : UnifyResult × Fsys :=
  let claude := gather_claude parseJson fs projectPath
  let codex := gather_from_candidates parseJson fs projectPath codexRoots
  let gemini := gather_from_candidates parseJson fs projectPath geminiRoots
  let merged := unifyCore parseTs claude codex gemini
  let outLines := merged.1.map ser
  let fs2 := writeFile fs (unifiedPath projectPath) outLines
  (⟨unifiedPath projectPath, merged.1.length, merged.2⟩, fs2)

/-! ## Provider supervisor model

`commands/codex.rs` and `commands/gemini.rs` contain the same supervisor
logic instantiated for the provider names "codex" and "gemini"; the
model is parametrized by the provider name. Events carry the topic
string and the structured payload that the source serializes into the
emitted string. -/

/-- One emitted event: topic and (pre-serialization) payload. -/
structure Event where
  topic : String
  payload : Json

/-- An observable action of the supervisor: a registry registration or
an event emission. -/
inductive Act where
  | register (sessionId provider : String) (pid : Nat)
      (projectPath prompt model : String) : Act
  | emit (e : Event) : Act

/-- The init payload (codex.rs:93-100, gemini.rs:90-97). -/
def initPayload (provider sessionId model projectPath : String) : Json :=
  .obj [("type", .str "system"), ("subtype", .str "init"),
        ("session_id", .str sessionId), ("model", .str model),
        ("cwd", .str projectPath), ("provider", .str provider)]

/-- The normalized assistant-text envelope one stdout line is wrapped in
(codex.rs:122-125, gemini.rs:118-121). -/
def assistantPayload (line : String) : Json :=
  .obj [("type", .str "assistant"),
        ("message", .obj [("content", .arr [.obj [("type", .str "text"),
          ("text", .str line)]])])]

/-- Events emitted for one stdout line: session-scoped topic first, then
provider-wide (codex.rs:127-128). -/
def stdoutLineEvents (provider sessionId line : String) : List Event :=
  [⟨provider ++ "-output:" ++ sessionId, assistantPayload line⟩,
   ⟨provider ++ "-output", assistantPayload line⟩]

/-- Events emitted for one stderr line, verbatim payload
(codex.rs:138-139). -/
def stderrLineEvents (provider sessionId line : String) : List Event :=
  [⟨provider ++ "-error:" ++ sessionId, .str line⟩,
   ⟨provider ++ "-error", .str line⟩]

/-- Completion events (codex.rs:151-152). -/
def completeEvents (provider sessionId : String) : List Event :=
  [⟨provider ++ "-complete:" ++ sessionId, .bool true⟩,
   ⟨provider ++ "-complete", .bool true⟩]

/-- What the OS gives the spawn call: whether `cmd.spawn()` succeeds, the
pid, and the lines the process will produce on each stream. -/
structure SpawnEnv where
  spawnOk : Bool
  pid : Nat
  stdoutLines : List String
  stderrLines : List String

/-- The outcome of `spawn_codex_process` / `spawn_gemini_process`
(codex.rs:43-161, gemini.rs:42-152): the value returned to the caller,
the actions performed synchronously before returning (registration,
slot store, init emissions), the per-task event sequences produced by
the spawned stdout/stderr/completion tasks, and the slot content at
return time. -/
structure SpawnOutcome where
  result : Except String Unit
  sessionId : String
  syncActs : List Act
  stdoutEvents : List Event
  stderrEvents : List Event
  completionEvents : List Event
  slotAfterReturn : Option Nat

/-- `spawn_codex_process` / `spawn_gemini_process`: on spawn failure
return the error with nothing registered or emitted; on success,
register the session, store the child handle in the provider slot, emit
the init payload on the provider-wide and the session-scoped output
topics, and hand the streams to the background tasks. -/
def spawnProviderProcess (provider : String) (env : SpawnEnv)
    (sessionId prompt model projectPath : String) : SpawnOutcome :=
  if env.spawnOk then
    { result := .ok ()
      sessionId := sessionId
      syncActs :=
        [.register sessionId provider env.pid projectPath prompt model,
         .emit ⟨provider ++ "-output", initPayload provider sessionId model projectPath⟩,
         .emit ⟨provider ++ "-output:" ++ sessionId,
                initPayload provider sessionId model projectPath⟩]
      stdoutEvents := env.stdoutLines.flatMap (stdoutLineEvents provider sessionId)
      stderrEvents := env.stderrLines.flatMap (stderrLineEvents provider sessionId)
      completionEvents := completeEvents provider sessionId
      slotAfterReturn := some env.pid }
  else
    { result := .error ("Failed to spawn " ++ provider)
      sessionId := sessionId
      syncActs := []
      stdoutEvents := []
      stderrEvents := []
      completionEvents := []
      slotAfterReturn := none }

/-- `execute_codex_chat` / `execute_gemini_chat` (codex.rs:163-178,
gemini.rs:154-167): mint a fresh session id from the uuid source `gen`
(its `n`-th draw, `Uuid::new_v4` abstracted) and run the spawn pipeline.
The caller's result carries no session id: the source returns
`Result<(), String>`. -/
def executeProviderChat (provider : String) (gen : Nat → String) (n : Nat)
    (env : SpawnEnv) (projectPath prompt model : String) : SpawnOutcome :=
  spawnProviderProcess provider env (gen n) prompt model projectPath

/-- `resume_codex_chat` / `resume_gemini_chat`: same pipeline with a
caller-supplied session id. -/
def resumeProviderChat (provider : String) (env : SpawnEnv)
    (sessionId projectPath prompt model : String) : SpawnOutcome :=
  spawnProviderProcess provider env sessionId prompt model projectPath

/-- All interleavings of two sequences (order within each preserved). -/
def interleavings : List α → List α → List (List α)
  | [], ys => [ys]
  | x :: xs, [] => [x :: xs]
  | x :: xs, y :: ys =>
      (interleavings xs (y :: ys)).map (x :: ·) ++
      (interleavings (x :: xs) ys).map (y :: ·)

/-- A complete observable trace of a successful spawn: the synchronous
actions in program order, then the stdout and stderr task events in some
interleaving (each stream in order), then — after both streams end — the
completion events (codex.rs:145-158). -/
def ValidTrace (o : SpawnOutcome) (t : List Act) : Prop :=
  ∃ u ∈ interleavings o.stdoutEvents o.stderrEvents,
    t = o.syncActs ++ u.map Act.emit ++ o.completionEvents.map Act.emit

/-- An output event addressed to (carrying) session `sessionId` of
`provider`: session-scoped output topic with an assistant payload
(the init payload also travels on this topic but is a system message). -/
def isOutputFor (provider sessionId : String) (e : Event) : Prop :=
  e.topic = provider ++ "-output:" ++ sessionId ∧
    e.payload.get "type" = some (.str "assistant")

/-- An error event addressed to session `sessionId` of `provider`. -/
def isErrorFor (provider sessionId : String) (e : Event) : Prop :=
  e.topic = provider ++ "-error:" ++ sessionId

/-- The init event addressed to session `sessionId`. -/
def isInitFor (provider sessionId : String) (e : Event) : Prop :=
  (e.payload.get "subtype" = some (.str "init")) ∧
    (e.payload.get "session_id" = some (.str sessionId)) ∧
    (e.topic = provider ++ "-output" ∨ e.topic = provider ++ "-output:" ++ sessionId)

/-- `cancel_codex_execution` / `cancel_gemini_execution` (codex.rs:194-203,
gemini.rs:183-192) over the provider slot: empty slot is a successful
no-op; a held handle is killed (`start_kill`, modelled by `kill`) and,
when the kill succeeds, the slot is cleared; a kill error is returned
with the slot left untouched. Also reports which handles were killed. -/
def cancelProviderExecution (kill : Nat → Except String Unit)
    (slot : Option Nat) : Except String Unit × Option Nat × List Nat :=
  match slot with
  | none => (.ok (), none, [])
  | some h =>
    match kill h with
    | .ok () => (.ok (), none, [h])
    | .error e => (.error e, some h, [])

/-- `get_codex_default_model` / `get_gemini_default_model`
(codex.rs:375-379, gemini.rs): the settings store (`read_db_value`,
abstracted) is consulted first; only when it has no value is the
config-file scan result used. The boolean records whether the scan was
consulted. -/
def getProviderDefaultModel (store : String → Option String)
    (scan : Option String) (provider : String) : Option String × Bool :=
  match store (provider ++ "_default_model") with
  | some v => (some v, false)
  | none => (scan, true)

/-- A concrete JSON parser fragment used by witnesses: accepts exactly
the line `"rec"`. -/
def sampleParse : String → Option Json :=
  fun s => if s = "rec" then some (Json.str s) else none

/-- An empty filesystem, used by witnesses. -/
def emptyFs : Fsys := ⟨[]⟩

/-- A session-id source whose draws are pairwise distinct, used by
witnesses for the uuid generator. -/
def replicateGen : Nat → String := fun k => String.mk (List.replicate k 'x')

/-- A concrete spawn environment for witnesses: spawn succeeds, pid 7,
one stdout line, no stderr. -/
def sampleEnv : SpawnEnv := ⟨true, 7, ["hello"], []⟩

/-- A concrete spawn outcome for witnesses. -/
def sampleOutcome : SpawnOutcome :=
  spawnProviderProcess "codex" sampleEnv "S" "hi" "m" "/p"

/-- A concrete full trace of `sampleOutcome`: synchronous actions, then
the stdout events, then completion. -/
def sampleTrace : List Act :=
  sampleOutcome.syncActs ++ sampleOutcome.stdoutEvents.map Act.emit ++
    sampleOutcome.completionEvents.map Act.emit

/-! ## Helper lemmas -/

/-- Replacing `'/'` by `'-'` and back restores any dash-free character
list. -/
lemma decode_encode_chars :
    ∀ l : List Char, '-' ∉ l →
      (l.map (fun c => if c = '/' then '-' else c)).map
        (fun c => if c = '-' then '/' else c) = l := by
  intro l hl
  induction l with
  | nil => rfl
  | cons c cs ih =>
    have hc : c ≠ '-' := fun h => hl (h ▸ List.mem_cons_self c cs)
    have hcs := ih (fun h => hl (List.mem_cons_of_mem _ h))
    by_cases h : c = '/'
    · subst h; simp [hcs]
    · simp [h, hc, hcs]

/-- Congruence for `flatMap` under a pointwise-equal function. -/
lemma flatMap_congr_mem {f g : α → List β} :
    ∀ (l : List α), (∀ a ∈ l, f a = g a) → l.flatMap f = l.flatMap g := by
  intro l h
  induction l with
  | nil => rfl
  | cons a as ih =>
    simp only [List.flatMap_cons]
    rw [h a (List.mem_cons_self a as), ih (fun b hb => h b (List.mem_cons_of_mem a hb))]

/-- Replacing the file at `q` does not change a path-filtered view that
excludes `q`. -/
lemma filter_map_replace (files : List SrcFile) (q ls : List String)
    (P : SrcFile → Bool) (hq : ∀ m, P (SrcFile.mk q m) = false) :
    (files.map (fun f => if f.path = q then SrcFile.mk q ls else f)).filter P =
      files.filter P := by
  induction files with
  | nil => rfl
  | cons f fs ih =>
    simp only [List.map_cons, List.filter_cons]
    by_cases h : f.path = q
    · have hf : P f = false := by
        have hfe : f = SrcFile.mk q f.lines := by
          cases f with
          | mk pa li => simp only at h; rw [h]
        rw [hfe, hq]
      simp [h, hq, hf, ih]
    · simp only [h, if_false, ih]

/-- Writing to a path the selection predicate rejects (for any lines)
leaves the selected files unchanged. -/
lemma filter_writeFile (fs : Fsys) (q ls : List String) (P : SrcFile → Bool)
    (hq : ∀ m, P (SrcFile.mk q m) = false) :
    (writeFile fs q ls).files.filter P = fs.files.filter P := by
  unfold writeFile
  by_cases h : fs.files.any (fun f => f.path = q)
  · simp only [h, if_true]
    exact filter_map_replace fs.files q ls P hq
  · simp only [h, if_false, List.filter_append]
    simp [hq]

/-- Reading back the file just written yields exactly the written
lines. -/
lemma readFile_writeFile (fs : Fsys) (q ls : List String) :
    readFile (writeFile fs q ls) q = some ls := by
  unfold readFile writeFile
  by_cases h : fs.files.any (fun f => f.path = q)
  · simp only [h, if_true]
    have hfind : ∀ files : List SrcFile,
        files.any (fun f => f.path = q) = true →
        (files.map (fun f => if f.path = q then SrcFile.mk q ls else f)).find?
            (fun f => f.path = q) = some (SrcFile.mk q ls) := by
      intro files
      induction files with
      | nil => intro hc; simp at hc
      | cons f fs ih =>
        intro hc
        by_cases hf : f.path = q
        · simp [List.find?, hf]
        · have hc' : fs.any (fun f => f.path = q) = true := by
            simp only [List.any_cons, hf] at hc
            simpa using hc
          simp [List.find?, hf, ih hc']
    rw [hfind fs.files h]
    rfl
  · rw [if_neg h]
    simp only []
    rw [List.find?_append]
    have hnone : fs.files.find? (fun f => f.path = q) = none := by
      rw [List.find?_eq_none]
      intro f hf
      simp only [List.any_eq_true, not_exists] at h
      intro hfp
      exact h f ⟨hf, hfp⟩
    simp [hnone, List.find?]

/-- The claude gatherer never selects the unified output file: the
output lives under `~/.ishinex`, the claude logs under `~/.claude`. -/
lemma claudeSelects_unifiedPath (p p' : String) :
    claudeSelects p' (unifiedPath p) = false := rfl

/-- No codex/gemini candidate root contains the unified output file. -/
lemma underRoot_unifiedPath (p : String) :
    ∀ root ∈ codexRoots ++ geminiRoots, underRoot root (unifiedPath p) = false := by
  intro root hr
  simp only [codexRoots, geminiRoots, List.mem_append, List.mem_cons,
    List.mem_singleton, List.not_mem_nil, or_false] at hr
  rcases hr with (rfl | rfl | rfl | rfl | rfl) | (rfl | rfl | rfl) <;> rfl

/-- Writing the unified output file changes no gather result. -/
lemma gathers_unchanged_by_output (pj : String → Option Json) (fs : Fsys)
    (p p' : String) (ls : List String) :
    gather_claude pj (writeFile fs (unifiedPath p) ls) p' = gather_claude pj fs p' ∧
    (∀ roots, (∀ root ∈ roots, underRoot root (unifiedPath p) = false) →
      gather_from_candidates pj (writeFile fs (unifiedPath p) ls) p' roots =
        gather_from_candidates pj fs p' roots) := by
  constructor
  · unfold gather_claude
    rw [filter_writeFile]
    intro m
    exact claudeSelects_unifiedPath p p'
  · intro roots hroots
    unfold gather_from_candidates
    apply flatMap_congr_mem
    intro root hroot
    rw [filter_writeFile]
    intro m
    simp [hroots root hroot]

/-- Membership in the per-provider statistics of the merge. -/
lemma mem_unify_sources (pt : String → Option Int) (c x g : List Json)
    (s : SourceStat) :
    s ∈ (unifyCore pt c x g).2 ↔
      (c ≠ [] ∧ s = ⟨"claude", c.length⟩) ∨
      (x ≠ [] ∧ s = ⟨"codex", x.length⟩) ∨
      (g ≠ [] ∧ s = ⟨"gemini", g.length⟩) := by
  simp only [unifyCore]
  by_cases h1 : c = [] <;> by_cases h2 : x = [] <;> by_cases h3 : g = [] <;>
    simp [h1, h2, h3, List.isEmpty_iff]

/-- The total record count of the merge equals the sum of the reported
per-provider counts. -/
lemma unifyCore_total_eq_sum (pt : String → Option Int) (c x g : List Json) :
    (unifyCore pt c x g).1.length =
      ((unifyCore pt c x g).2.map SourceStat.count).sum := by
  have hlen : (unifyCore pt c x g).1.length = c.length + x.length + g.length := by
    show (List.insertionSort (tsLe pt) (c ++ x ++ g)).length = _
    rw [List.length_insertionSort]
    simp only [List.length_append]
  rw [hlen]
  simp only [unifyCore]
  by_cases h1 : c = [] <;> by_cases h2 : x = [] <;> by_cases h3 : g = [] <;>
    simp [h1, h2, h3, List.isEmpty_iff] <;> omega

/-- Statistics with different provider names differ. -/
lemma sourceStat_ne (a b : String) (m n : Nat) (hab : a ≠ b) :
    SourceStat.mk a m ≠ SourceStat.mk b n :=
  fun h => hab (congrArg SourceStat.provider h)

/-- With an empty second stream the only interleaving is the first
stream itself. -/
lemma interleavings_nil_right (xs : List α) : interleavings xs [] = [xs] := by
  cases xs with
  | nil => simp [interleavings]
  | cons x xs => simp [interleavings]

lemma replicateGen_injective : Function.Injective replicateGen := by
  intro a b h
  have h2 := congrArg (fun s => s.data.length) h
  simpa [replicateGen] using h2

/-- The provider-wide output topic is never an error topic. -/
lemma output_topic_ne_error_topic (p sid : String) :
    p ++ "-output" ≠ p ++ "-error:" ++ sid := by
  intro h
  have h2 := congrArg String.data h
  rw [String.data_append, String.data_append, String.data_append] at h2
  have h2b : p.data ++ ("-output" : String).data =
      p.data ++ (("-error:" : String).data ++ sid.data) := by
    simpa [List.append_assoc] using h2
  have h3 : ("-output" : String).data = ("-error:" : String).data ++ sid.data :=
    List.append_cancel_left h2b
  have ho : ("-output" : String).data = ['-', 'o', 'u', 't', 'p', 'u', 't'] := rfl
  have he : ("-error:" : String).data = ['-', 'e', 'r', 'r', 'o', 'r', ':'] := rfl
  rw [ho, he] at h3
  simp at h3

/-- The session-scoped output topic is never an error topic. -/
lemma output_sid_topic_ne_error_topic (p sid : String) :
    p ++ "-output:" ++ sid ≠ p ++ "-error:" ++ sid := by
  intro h
  have h2 := congrArg String.data h
  rw [String.data_append, String.data_append, String.data_append,
    String.data_append] at h2
  have h2b : p.data ++ (("-output:" : String).data ++ sid.data) =
      p.data ++ (("-error:" : String).data ++ sid.data) := by
    simpa [List.append_assoc] using h2
  have h3 : ("-output:" : String).data ++ sid.data =
      ("-error:" : String).data ++ sid.data :=
    List.append_cancel_left h2b
  have ho : ("-output:" : String).data = ['-', 'o', 'u', 't', 'p', 'u', 't', ':'] := rfl
  have he : ("-error:" : String).data = ['-', 'e', 'r', 'r', 'o', 'r', ':'] := rfl
  rw [ho, he] at h3
  simp at h3

/-! ## Claim theorems -/

/-- C2: re-running unification on an unchanged project yields the very
same `UnifyResult` and a byte-identical unified output file: the output
file lives under `~/.ishinex`, which none of the gatherers read, so the
first run's write cannot perturb the second run's inputs. -/
theorem unify_rerun_identical (pj : String → Option Json)
    (pt : String → Option Int) (ser : Json → String) (fs : Fsys) (p : String) :
    (unify_provider_histories pj pt ser
        (unify_provider_histories pj pt ser fs p).2 p).1 =
      (unify_provider_histories pj pt ser fs p).1 ∧
    readFile (unify_provider_histories pj pt ser
        (unify_provider_histories pj pt ser fs p).2 p).2 (unifiedPath p) =
      readFile (unify_provider_histories pj pt ser fs p).2 (unifiedPath p) := by
  obtain ⟨hc, hcand⟩ := gathers_unchanged_by_output pj fs p p
    ((unifyCore pt (gather_claude pj fs p)
        (gather_from_candidates pj fs p codexRoots)
        (gather_from_candidates pj fs p geminiRoots)).1.map ser)
  have hx := hcand codexRoots
    (fun r hr => underRoot_unifiedPath p r (List.mem_append.mpr (Or.inl hr)))
  have hg := hcand geminiRoots
    (fun r hr => underRoot_unifiedPath p r (List.mem_append.mpr (Or.inr hr)))
  have hfs1 : (unify_provider_histories pj pt ser fs p).2 =
      writeFile fs (unifiedPath p)
        ((unifyCore pt (gather_claude pj fs p)
            (gather_from_candidates pj fs p codexRoots)
            (gather_from_candidates pj fs p geminiRoots)).1.map ser) := rfl
  constructor
  · rw [hfs1]
    show (⟨unifiedPath p, _, _⟩ : UnifyResult) = ⟨unifiedPath p, _, _⟩
    rw [hc, hx, hg]
  · rw [hfs1]
    have hfs2 : (unify_provider_histories pj pt ser
        (writeFile fs (unifiedPath p)
          ((unifyCore pt (gather_claude pj fs p)
              (gather_from_candidates pj fs p codexRoots)
              (gather_from_candidates pj fs p geminiRoots)).1.map ser)) p).2 =
        writeFile
          (writeFile fs (unifiedPath p)
            ((unifyCore pt (gather_claude pj fs p)
                (gather_from_candidates pj fs p codexRoots)
                (gather_from_candidates pj fs p geminiRoots)).1.map ser))
          (unifiedPath p)
          ((unifyCore pt
              (gather_claude pj (writeFile fs (unifiedPath p)
                ((unifyCore pt (gather_claude pj fs p)
                    (gather_from_candidates pj fs p codexRoots)
                    (gather_from_candidates pj fs p geminiRoots)).1.map ser)) p)
              (gather_from_candidates pj (writeFile fs (unifiedPath p)
                ((unifyCore pt (gather_claude pj fs p)
                    (gather_from_candidates pj fs p codexRoots)
                    (gather_from_candidates pj fs p geminiRoots)).1.map ser)) p codexRoots)
              (gather_from_candidates pj (writeFile fs (unifiedPath p)
                ((unifyCore pt (gather_claude pj fs p)
                    (gather_from_candidates pj fs p codexRoots)
                    (gather_from_candidates pj fs p geminiRoots)).1.map ser)) p geminiRoots)).1.map
            ser) := rfl
    rw [hfs2, hc, hx, hg, readFile_writeFile, readFile_writeFile]

/-- C7: a provider contributing zero records is omitted from the
returned statistics, and a provider contributing records appears with
its exact count. -/
theorem unify_sources_nonzero_only (pj : String → Option Json)
    (pt : String → Option Int) (ser : Json → String) (fs : Fsys) (p : String) :
    (gather_claude pj fs p = [] → ∀ n, SourceStat.mk "claude" n ∉
      (unify_provider_histories pj pt ser fs p).1.sources) ∧
    (gather_claude pj fs p ≠ [] →
      SourceStat.mk "claude" (gather_claude pj fs p).length ∈
        (unify_provider_histories pj pt ser fs p).1.sources) ∧
    (gather_from_candidates pj fs p codexRoots = [] → ∀ n, SourceStat.mk "codex" n ∉
      (unify_provider_histories pj pt ser fs p).1.sources) ∧
    (gather_from_candidates pj fs p codexRoots ≠ [] →
      SourceStat.mk "codex" (gather_from_candidates pj fs p codexRoots).length ∈
        (unify_provider_histories pj pt ser fs p).1.sources) ∧
    (gather_from_candidates pj fs p geminiRoots = [] → ∀ n, SourceStat.mk "gemini" n ∉
      (unify_provider_histories pj pt ser fs p).1.sources) ∧
    (gather_from_candidates pj fs p geminiRoots ≠ [] →
      SourceStat.mk "gemini" (gather_from_candidates pj fs p geminiRoots).length ∈
        (unify_provider_histories pj pt ser fs p).1.sources) := by
  have hs : (unify_provider_histories pj pt ser fs p).1.sources =
      (unifyCore pt (gather_claude pj fs p)
        (gather_from_candidates pj fs p codexRoots)
        (gather_from_candidates pj fs p geminiRoots)).2 := rfl
  refine ⟨?_, ?_, ?_, ?_, ?_, ?_⟩
  · intro h n hmem
    rw [hs, mem_unify_sources] at hmem
    rcases hmem with ⟨hne, _⟩ | ⟨_, heq⟩ | ⟨_, heq⟩
    · exact hne h
    · exact absurd heq (sourceStat_ne _ _ _ _ (by decide))
    · exact absurd heq (sourceStat_ne _ _ _ _ (by decide))
  · intro h
    rw [hs, mem_unify_sources]
    exact Or.inl ⟨h, rfl⟩
  · intro h n hmem
    rw [hs, mem_unify_sources] at hmem
    rcases hmem with ⟨_, heq⟩ | ⟨hne, _⟩ | ⟨_, heq⟩
    · exact absurd heq (sourceStat_ne _ _ _ _ (by decide))
    · exact hne h
    · exact absurd heq (sourceStat_ne _ _ _ _ (by decide))
  · intro h
    rw [hs, mem_unify_sources]
    exact Or.inr (Or.inl ⟨h, rfl⟩)
  · intro h n hmem
    rw [hs, mem_unify_sources] at hmem
    rcases hmem with ⟨_, heq⟩ | ⟨_, heq⟩ | ⟨hne, _⟩
    · exact absurd heq (sourceStat_ne _ _ _ _ (by decide))
    · exact absurd heq (sourceStat_ne _ _ _ _ (by decide))
    · exact hne h
  · intro h
    rw [hs, mem_unify_sources]
    exact Or.inr (Or.inr ⟨h, rfl⟩)

/-- C7 witness: on an empty filesystem every provider contributes zero
records and is omitted from the statistics. -/
theorem unify_sources_nonzero_only_witness :
    SourceStat.mk "claude" 3 ∉
      (unify_provider_histories sampleParse (fun _ => none) (fun _ => "")
        emptyFs "P").1.sources :=
  (unify_sources_nonzero_only sampleParse (fun _ => none) (fun _ => "")
    emptyFs "P").1 rfl 3

/-- C10: the reported total equals the sum of the per-provider counts
and equals the number of record lines written to the unified output
file. -/
theorem unify_total_consistency (pj : String → Option Json)
    (pt : String → Option Int) (ser : Json → String) (fs : Fsys) (p : String) :
    ((unify_provider_histories pj pt ser fs p).1.total_messages =
      (((unify_provider_histories pj pt ser fs p).1.sources).map
        SourceStat.count).sum) ∧
    (∃ out, readFile (unify_provider_histories pj pt ser fs p).2
        ((unify_provider_histories pj pt ser fs p).1.unified_path) = some out ∧
      out.length = (unify_provider_histories pj pt ser fs p).1.total_messages) := by
  constructor
  · exact unifyCore_total_eq_sum pt (gather_claude pj fs p)
      (gather_from_candidates pj fs p codexRoots)
      (gather_from_candidates pj fs p geminiRoots)
  · refine ⟨(unifyCore pt (gather_claude pj fs p)
        (gather_from_candidates pj fs p codexRoots)
        (gather_from_candidates pj fs p geminiRoots)).1.map ser, ?_, ?_⟩
    · exact readFile_writeFile fs (unifiedPath p) _
    · exact List.length_map _ _

/-- C5 (counterexample): the claim that `encode_project_id` is injective
on project paths fails: the distinct paths `"a/b"` and `"a-b"` encode to
the same identifier. -/
theorem encode_project_id_not_injective :
    encode_project_id "a/b" = encode_project_id "a-b" ∧ ("a/b" : String) ≠ "a-b" :=
  ⟨rfl, by decide⟩

/-- C5 (amended): `encode_project_id` is injective, and the original
path is recoverable, on project paths that do not contain the joining
character `'-'`; in general distinct paths may collide. -/
theorem encode_project_id_injective_on_dashfree (p q : String)
    (hp : '-' ∉ p.data) (hq : '-' ∉ q.data) :
    decode_project_id (encode_project_id p) = p ∧
    (encode_project_id p = encode_project_id q → p = q) := by
  have hdec : ∀ r : String, '-' ∉ r.data →
      decode_project_id (encode_project_id r) = r := by
    intro r hr
    cases r with
    | mk data => exact congrArg String.mk (decode_encode_chars data hr)
  refine ⟨hdec p hp, fun h => ?_⟩
  rw [← hdec p hp, ← hdec q hq, h]

/-- C5 witness: the amended theorem applied at the dash-free path
`"a/b"`. -/
theorem encode_project_id_injective_on_dashfree_witness :
    decode_project_id (encode_project_id "a/b") = "a/b" ∧
    (encode_project_id "a/b" = encode_project_id "a/b" → ("a/b" : String) = "a/b") :=
  encode_project_id_injective_on_dashfree "a/b" "a/b" (by decide) (by decide)

/-- C1: the unified output of the merge is ordered by the extracted
timestamp key (default 0 when absent/unparseable) and the sort is
stable: for every key value, the records carrying it appear in the same
order as in the combined claude-then-codex-then-gemini input. A stable
sort by key is uniquely determined by these two properties, so they pin
the modelling of Rust's stable `sort_by_key`. The third conjunct is the
concrete example: records with timestamps 100 and 50 and one without
sort as no-timestamp, 50, 100. -/
theorem unify_sorts_stably_by_timestamp (pt : String → Option Int)
    (claude codex gemini : List Json) :
    (unifyCore pt claude codex gemini).1.Pairwise (tsLe pt) ∧
    (∀ k : Int, (unifyCore pt claude codex gemini).1.filter
          (fun v => sortKeyTs pt v == k) =
        (claude ++ codex ++ gemini).filter (fun v => sortKeyTs pt v == k)) ∧
    (unifyCore (fun s => if s = "T100" then some 100 else
          if s = "T50" then some 50 else none)
        [Json.obj [("timestamp", .str "T100"), ("provider", .str "a")]]
        [Json.obj [("timestamp", .str "T50"), ("provider", .str "b")]]
        [Json.obj [("provider", .str "c")]]).1 =
      [Json.obj [("provider", .str "c")],
       Json.obj [("timestamp", .str "T50"), ("provider", .str "b")],
       Json.obj [("timestamp", .str "T100"), ("provider", .str "a")]] := by
  refine ⟨?_, ?_, rfl⟩
  · show (List.insertionSort (tsLe pt) (claude ++ codex ++ gemini)).Pairwise (tsLe pt)
    haveI : IsTotal Json (tsLe pt) := ⟨fun a b => Int.le_total _ _⟩
    haveI : IsTrans Json (tsLe pt) := ⟨fun _ _ _ hab hbc => le_trans hab hbc⟩
    exact List.sorted_insertionSort _ _
  · intro k
    show (List.insertionSort (tsLe pt) (claude ++ codex ++ gemini)).filter _ = _
    set all := claude ++ codex ++ gemini with hall
    set pk : Json → Bool := fun v => sortKeyTs pt v == k with hpk
    have hsub : List.Sublist (all.filter pk) all := List.filter_sublist all
    have hpw : (all.filter pk).Pairwise (tsLe pt) := by
      apply List.pairwise_of_forall_mem_list
      intro a ha b hb
      have hak : sortKeyTs pt a = k := by
        simpa [hpk] using (List.mem_filter.mp ha).2
      have hbk : sortKeyTs pt b = k := by
        simpa [hpk] using (List.mem_filter.mp hb).2
      show sortKeyTs pt a ≤ sortKeyTs pt b
      rw [hak, hbk]
    have h1 : List.Sublist (all.filter pk) (List.insertionSort (tsLe pt) all) :=
      List.sublist_insertionSort hpw hsub
    have hself : (all.filter pk).filter pk = all.filter pk :=
      List.filter_eq_self.mpr (fun a ha => (List.mem_filter.mp ha).2)
    have h2 : List.Sublist (all.filter pk)
        ((List.insertionSort (tsLe pt) all).filter pk) := by
      have h3 := h1.filter pk
      rwa [hself] at h3
    have hperm : List.Perm ((List.insertionSort (tsLe pt) all).filter pk)
        (all.filter pk) :=
      (List.perm_insertionSort (tsLe pt) all).filter pk
    exact (h2.eq_of_length hperm.length_eq.symm).symm

/-- C3 (counterexample): the claim says start-chat returns the fresh
session id as its result value. In the source the command returns
`Result<(), String>`: two successful runs that mint distinct fresh
session ids return the literally identical unit result, so the result
value cannot be (or determine) the session id — it is only carried by
the init event. -/
theorem start_chat_result_is_unit_not_session_id :
    (executeProviderChat "codex" replicateGen 0 ⟨true, 7, [], []⟩
        "/p" "hi" "m").result = Except.ok () ∧
    (executeProviderChat "codex" replicateGen 1 ⟨true, 7, [], []⟩
        "/p" "hi" "m").result =
      (executeProviderChat "codex" replicateGen 0 ⟨true, 7, [], []⟩
        "/p" "hi" "m").result ∧
    (executeProviderChat "codex" replicateGen 0 ⟨true, 7, [], []⟩
        "/p" "hi" "m").sessionId ≠
      (executeProviderChat "codex" replicateGen 1 ⟨true, 7, [], []⟩
        "/p" "hi" "m").sessionId :=
  ⟨rfl, rfl, by decide⟩

/-- C3 (amended): start-chat mints a fresh session id (distinct from all
previously minted ones), returns immediately with the unit success
result — the completion events are pending in background tasks, not
among the actions performed before returning — and the fresh session id
is communicated through the init event rather than the result value. -/
theorem start_chat_fresh_and_nonblocking (provider : String) (gen : Nat → String)
    (n : Nat) (env : SpawnEnv) (pp prompt model : String)
    (hgen : Function.Injective gen) (hok : env.spawnOk = true) :
    (executeProviderChat provider gen n env pp prompt model).result = .ok () ∧
    (executeProviderChat provider gen n env pp prompt model).sessionId = gen n ∧
    (∀ m, m < n →
      gen m ≠ (executeProviderChat provider gen n env pp prompt model).sessionId) ∧
    ((Act.emit ⟨provider ++ "-output:" ++ gen n,
        initPayload provider (gen n) model pp⟩) ∈
      (executeProviderChat provider gen n env pp prompt model).syncActs) ∧
    (∀ e ∈ (executeProviderChat provider gen n env pp prompt model).completionEvents,
      Act.emit e ∉
        (executeProviderChat provider gen n env pp prompt model).syncActs) := by
  refine ⟨?_, ?_, ?_, ?_, ?_⟩
  · simp [executeProviderChat, spawnProviderProcess, hok]
  · simp [executeProviderChat, spawnProviderProcess, hok]
  · intro m hm heq
    simp only [executeProviderChat, spawnProviderProcess, hok, if_true] at heq
    exact absurd (hgen heq) (Nat.ne_of_lt hm)
  · simp [executeProviderChat, spawnProviderProcess, hok]
  · intro e he hmem
    simp only [executeProviderChat, spawnProviderProcess, hok, if_true] at he hmem
    simp only [completeEvents, List.mem_cons, List.not_mem_nil, or_false] at he
    rcases he with rfl | rfl <;>
    · simp only [List.mem_cons, List.not_mem_nil, or_false] at hmem
      rcases hmem with h | h | h <;> simp [initPayload] at h

/-- C3 witness for the amended claim, at a concrete environment and the
second draw of an injective id source. -/
theorem start_chat_fresh_and_nonblocking_witness :
    (executeProviderChat "codex" replicateGen 1 ⟨true, 7, [], []⟩
        "/p" "hi" "m").result = .ok () ∧
    (executeProviderChat "codex" replicateGen 1 ⟨true, 7, [], []⟩
        "/p" "hi" "m").sessionId = replicateGen 1 ∧
    (∀ m, m < 1 → replicateGen m ≠
      (executeProviderChat "codex" replicateGen 1 ⟨true, 7, [], []⟩
        "/p" "hi" "m").sessionId) ∧
    ((Act.emit ⟨"codex" ++ "-output:" ++ replicateGen 1,
        initPayload "codex" (replicateGen 1) "m" "/p"⟩) ∈
      (executeProviderChat "codex" replicateGen 1 ⟨true, 7, [], []⟩
        "/p" "hi" "m").syncActs) ∧
    (∀ e ∈ (executeProviderChat "codex" replicateGen 1 ⟨true, 7, [], []⟩
        "/p" "hi" "m").completionEvents,
      Act.emit e ∉
        (executeProviderChat "codex" replicateGen 1 ⟨true, 7, [], []⟩
          "/p" "hi" "m").syncActs) :=
  start_chat_fresh_and_nonblocking "codex" replicateGen 1 ⟨true, 7, [], []⟩
    "/p" "hi" "m" replicateGen_injective rfl

/-- C4: in every valid trace of a successfully spawned session (any
interleaving of the stdout and stderr task events after the synchronous
prefix, completion last), every output or error event carrying the
session id is preceded both by the init event for that session id and by
the registration of the session in the registry. Stated over the spawn
pipeline shared by start-chat and resume-chat. -/
theorem init_and_registration_precede_outputs (provider : String) (env : SpawnEnv)
    (sid pp prompt model : String) (hok : env.spawnOk = true) (t : List Act)
    (ht : ValidTrace (spawnProviderProcess provider env sid prompt model pp) t)
    (i : Nat) (e : Event)
    (he : t[i]? = some (Act.emit e))
    (hkind : isOutputFor provider sid e ∨ isErrorFor provider sid e) :
    (∃ j, j < i ∧ ∃ e2, t[j]? = some (Act.emit e2) ∧ isInitFor provider sid e2) ∧
    (∃ j, j < i ∧ t[j]? = some (Act.register sid provider env.pid pp prompt model)) := by
  obtain ⟨u, _, hteq⟩ := ht
  have hsync : (spawnProviderProcess provider env sid prompt model pp).syncActs =
      [Act.register sid provider env.pid pp prompt model,
       Act.emit ⟨provider ++ "-output", initPayload provider sid model pp⟩,
       Act.emit ⟨provider ++ "-output:" ++ sid, initPayload provider sid model pp⟩] := by
    simp [spawnProviderProcess, hok]
  have htype : (initPayload provider sid model pp).get "type" =
      some (Json.str "system") := rfl
  have hi3 : 3 ≤ i := by
    by_contra hlt
    push_neg at hlt
    rw [hteq, hsync] at he
    interval_cases i
    · simp at he
    · simp only [List.cons_append, List.getElem?_cons_succ,
        List.getElem?_cons_zero, Option.some.injEq] at he
      injection he with hev
      subst hev
      rcases hkind with ⟨_, hty⟩ | htop
      · have hty2 : (initPayload provider sid model pp).get "type" =
            some (Json.str "assistant") := hty
        have hcontra := htype.symm.trans hty2
        simp at hcontra
      · exact output_topic_ne_error_topic provider sid htop
    · simp only [List.cons_append, List.getElem?_cons_succ,
        List.getElem?_cons_zero, Option.some.injEq] at he
      injection he with hev
      subst hev
      rcases hkind with ⟨_, hty⟩ | htop
      · have hty2 : (initPayload provider sid model pp).get "type" =
            some (Json.str "assistant") := hty
        have hcontra := htype.symm.trans hty2
        simp at hcontra
      · exact output_sid_topic_ne_error_topic provider sid htop
  constructor
  · refine ⟨2, by omega, ⟨provider ++ "-output:" ++ sid,
      initPayload provider sid model pp⟩, ?_, ?_⟩
    · rw [hteq, hsync]
      simp [List.cons_append, List.getElem?_cons_succ, List.getElem?_cons_zero]
    · exact ⟨rfl, rfl, Or.inr rfl⟩
  · refine ⟨0, by omega, ?_⟩
    rw [hteq, hsync]
    simp [List.cons_append, List.getElem?_cons_zero]

/-- C4 witness: a concrete trace with one stdout line; its first output
event (index 3) is preceded by the session init event (index 2) and the
registration (index 0). -/
theorem init_and_registration_precede_outputs_witness :
    (∃ j, j < 3 ∧ ∃ e2, sampleTrace[j]? = some (Act.emit e2) ∧
      isInitFor "codex" "S" e2) ∧
    (∃ j, j < 3 ∧ sampleTrace[j]? =
      some (Act.register "S" "codex" 7 "/p" "hi" "m")) :=
  init_and_registration_precede_outputs "codex" sampleEnv "S" "/p" "hi" "m" rfl
    sampleTrace
    ⟨sampleOutcome.stdoutEvents,
      by
        show sampleOutcome.stdoutEvents ∈ interleavings sampleOutcome.stdoutEvents []
        rw [interleavings_nil_right]
        exact List.mem_singleton.mpr rfl,
      rfl⟩
    3 ⟨"codex-output:S", assistantPayload "hello"⟩ rfl (Or.inl ⟨rfl, rfl⟩)

/-- C6: a line that fails to parse is silently dropped — the file parses
to exactly what it would without that line — and every well-formed line
of the file is still ingested. -/
theorem read_jsonl_drops_malformed (parse : String → Option Json)
    (pre post : List String) (bad : String) (hbad : parse bad = none) :
    read_jsonl parse (pre ++ bad :: post) = read_jsonl parse (pre ++ post) ∧
    (∀ l ∈ pre ++ bad :: post, ∀ v, parse l = some v →
      v ∈ read_jsonl parse (pre ++ bad :: post)) := by
  constructor
  · simp [read_jsonl, List.filterMap_append, List.filterMap_cons, hbad]
  · intro l hl v hv
    simp only [read_jsonl, List.mem_filterMap]
    exact ⟨l, hl, hv⟩

/-- C6 witness: a malformed middle line between two well-formed lines. -/
theorem read_jsonl_drops_malformed_witness :
    read_jsonl sampleParse (["rec"] ++ "oops" :: ["rec"]) =
      read_jsonl sampleParse (["rec"] ++ ["rec"]) ∧
    (∀ l ∈ ["rec"] ++ "oops" :: ["rec"], ∀ v, sampleParse l = some v →
      v ∈ read_jsonl sampleParse (["rec"] ++ "oops" :: ["rec"])) :=
  read_jsonl_drops_malformed sampleParse ["rec"] ["rec"] "oops" rfl

/-- C8: `cancel` on an empty slot is a successful no-op; on a slot
holding a live handle (one `start_kill` succeeds on) it kills the
process and clears the slot; and a second consecutive `cancel` has the
same result and final slot as the first (idempotence). -/
theorem cancel_execution_spec (kill : Nat → Except String Unit) (slot : Option Nat) :
    (slot = none → cancelProviderExecution kill slot = (.ok (), none, [])) ∧
    (∀ h, slot = some h → kill h = .ok () →
      cancelProviderExecution kill slot = (.ok (), none, [h])) ∧
    ((cancelProviderExecution kill (cancelProviderExecution kill slot).2.1).1 =
        (cancelProviderExecution kill slot).1 ∧
      (cancelProviderExecution kill (cancelProviderExecution kill slot).2.1).2.1 =
        (cancelProviderExecution kill slot).2.1) := by
  refine ⟨?_, ?_, ?_⟩
  · rintro rfl; rfl
  · rintro h rfl hk
    simp [cancelProviderExecution, hk]
  · cases slot with
    | none => exact ⟨rfl, rfl⟩
    | some h =>
      cases hk : kill h with
      | ok u => cases u; simp [cancelProviderExecution, hk]
      | error e => simp [cancelProviderExecution, hk]

/-- C8 witness: cancelling a held live handle kills it and clears the
slot. -/
theorem cancel_execution_spec_witness :
    cancelProviderExecution (fun _ => Except.ok ()) (some 5) =
      (Except.ok (), none, [5]) :=
  (cancel_execution_spec (fun _ => Except.ok ()) (some 5)).2.1 5 rfl rfl

/-- C9: when the settings store holds a default-model value under the
provider's key, `get_default_model` returns it and the config-file scan
is not consulted; the scan is consulted exactly when the store has no
value. -/
theorem get_default_model_store_precedence (store : String → Option String)
    (scan : Option String) (provider : String) :
    (∀ v, store (provider ++ "_default_model") = some v →
      getProviderDefaultModel store scan provider = (some v, false)) ∧
    (store (provider ++ "_default_model") = none →
      getProviderDefaultModel store scan provider = (scan, true)) := by
  constructor
  · intro v hv; simp [getProviderDefaultModel, hv]
  · intro h; simp [getProviderDefaultModel, h]

/-- C9 witness: a stored value wins over a differing scan result. -/
theorem get_default_model_store_precedence_witness :
    getProviderDefaultModel
      (fun k => if k = "codex_default_model" then some "gpt-5" else none)
      (some "other-model") "codex" = (some "gpt-5", false) :=
  (get_default_model_store_precedence
    (fun k => if k = "codex_default_model" then some "gpt-5" else none)
    (some "other-model") "codex").1 "gpt-5" rfl
